import Mathlib

/-!
Verification of the `learn` training loop in `dsr/train_gym.py`
(deep-symbolic-optimization, gym variant).

The development shallowly embeds the body of `learn` over ℚ:
floating-point vectors become `List ℚ`, numpy reductions become the
explicit `maxQ` / `mean` / `clipR` / `argmaxQ` functions below, the
mutable loop variables become the record `LoopState` threaded through
explicit step functions, and the observable actions of one epoch
(render, sample, constant optimization, environment steps, baseline
update, log write, mask build, controller training step, best-expression
tracking, verification rollout, environment reset) are emitted as an
event trace `List Ev` so that ordering claims become statements about
lists.  External collaborators (the gym environment's `step`/`reset`/
`render`, the controller's `sample` and `max_length`, and `Program`
execution) enter through the `Config` record.
-/

namespace DsrGym

/-! ## Numeric helpers (numpy reductions used by the loop) -/

/-- Mean of a list of rationals, `np.mean`. -/
def mean (l : List ℚ) : ℚ := l.sum / (l.length : ℚ)

/-- Maximum of a list of rationals, `np.max` (0 on the empty list, which the
loop never passes). -/
def maxQ : List ℚ → ℚ
  | [] => 0
  | x :: xs => xs.foldl max x

/-- First index achieving the maximum, `np.argmax`. -/
def argmaxAux : List ℚ → Nat → Nat → ℚ → Nat
  | [], _, bi, _ => bi
  | x :: xs, i, bi, bv => if x > bv then argmaxAux xs (i + 1) i x else argmaxAux xs (i + 1) bi bv

/-- `np.argmax` over a list of rationals (0 on the empty list). -/
def argmaxQ : List ℚ → Nat
  | [] => 0
  | x :: xs => argmaxAux xs 1 0 x

/-- `np.clip(r, -1e6, np.inf)` : every entry is floored at `-1e6`
(train_gym.py line 203). -/
def clipR (l : List ℚ) : List ℚ := l.map (fun x => max x (-1000000))

/-- `max(x, best)` against a running best that starts at `-np.inf`
(modelled as `none`), as in `r_best = max(r_max, r_best)`
(train_gym.py lines 196 and 199). -/
def optMax : Option ℚ → ℚ → ℚ
  | none, x => x
  | some y, x => max x y

/-! ## Programs

`Program` and `from_tokens` live in `dsr/program.py`, which is not among
the sources of this repository snapshot; they are modelled from the spec. -/

/-- Modelled from the spec: §3/§4.2 `Program` (class `Program` of
`dsr/program.py`, absent from the sources).  A program is its prefix-order
token traversal, a constants vector, a flag recording whether its constants
have been optimized, and a complexity scalar computed from the traversal. -/
structure Program where
  traversal : List Nat
  constants : List ℚ
  optimized : Bool
  complexity : ℚ
  deriving DecidableEq

/-- The default (empty) program, standing for an uninitialized reference. -/
def pdefault : Program := ⟨[], [], false, 0⟩

instance : Inhabited Program := ⟨pdefault⟩

/-- Modelled from the spec: §4.2/§4.6 — `from_tokens` (`dsr/program.py`,
absent from the sources) builds a Program from a token sequence; with
`optimize := true` constant optimization runs at construction time.  The
complexity penalty is the configured "length" penalty with the default
weight 0.001 of `learn`. -/
def fromTokens (a : List Nat) (optimize : Bool) : Program :=
  { traversal := a
    constants := []
    optimized := optimize
    complexity := (a.length : ℚ) * (1 / 1000) }

/-- `list(set(...))` over Programs: deduplication under the spec's §4.2
structural equality (identical traversals), keeping first occurrences. -/
def dedupByTraversal (l : List Program) : List Program :=
  l.foldl (fun acc p => if acc.any (fun q => decide (q.traversal = p.traversal)) then acc else acc ++ [p]) []

/-! ## The worker pool and the parallel dispatch (train_gym.py lines 143-149
and 166-178) -/

/-- Lines 146-147: `num_cores == -1` is resolved to `multiprocessing.cpu_count()`. -/
def resolveNumCores (numCores cpuCount : Int) : Int :=
  if numCores = -1 then cpuCount else numCores

/-- Lines 143-149: the pool is created only when `"const"` is in the library
and the resolved core count exceeds 1; otherwise it stays `None`. -/
def createPool (library : List String) (numCores cpuCount : Int) : Option Int :=
  if "const" ∈ library then
    if resolveNumCores numCores cpuCount > 1 then some (resolveNumCores numCores cpuCount) else none
  else none

/-- Line 175, `programs_to_optimize = list(set([p for p in programs if base_r is None]))`.
`base_r` there is the *loop variable* of that name, not an attribute of `p`:
on the first epoch it is not yet assigned (Python raises UnboundLocalError,
modelled as the `none` binding ↦ `Except.error ()`), and on every later epoch
it is bound to the previous step's reward array, which is never `None`, so the
comprehension's test is `False` for every `p`. -/
def programsToOptimize (programs : List Program) (baseRBinding : Option (List ℚ)) :
    Except Unit (List Program) :=
  match baseRBinding with
  | none => Except.error ()
  | some _ => Except.ok (dedupByTraversal (programs.filter (fun _ => false)))

/-! ## The actions mask (train_gym.py lines 227-231)

`actions_mask = np.zeros_like(actions.T)` has shape `(max_length, batch_size)`
and is filled by the slice assignments `actions_mask[:length, i] = 1.0` with
`length = min(len(p.traversal), controller.max_length)`.  The matrix is
modelled row-major as `List (List ℚ)`. -/

/-- Entry `(j, i)` of a row-major matrix (0 outside the matrix). -/
def entry (m : List (List ℚ)) (j i : Nat) : ℚ := (m.getD j []).getD i 0

/-- The slice assignment `actions_mask[:len, i] = 1.0`: in each of the first
`len` rows, set entry `i` to 1. -/
def assignFirstRows : List (List ℚ) → Nat → Nat → List (List ℚ)
  | [], _, _ => []
  | r0 :: rs, 0, _ => r0 :: rs
  | r0 :: rs, n + 1, i => r0.set i 1 :: assignFirstRows rs n i

/-- The `for i, p in enumerate(programs)` loop of lines 229-231, one
`assignFirstRows` per program, with the enumeration index starting at `i0`. -/
def applyMaskLoop : List (List ℚ) → List Nat → Nat → Nat → List (List ℚ)
  | m, [], _, _ => m
  | m, t :: ts, maxLen, i0 => applyMaskLoop (assignFirstRows m (min t maxLen) i0) ts maxLen (i0 + 1)

/-- Lines 227-231: the full actions mask built from the traversal lengths of
the batch's programs and the controller's `max_length`. -/
def actions_mask (tlens : List Nat) (maxLen : Nat) : List (List ℚ) :=
  applyMaskLoop (List.replicate maxLen (List.replicate tlens.length 0)) tlens maxLen 0

/-- Column `i` of a row-major matrix. -/
def colOf (m : List (List ℚ)) (i : Nat) : List ℚ := m.map (fun row => row.getD i 0)

theorem entry_nil (j c : Nat) : entry ([] : List (List ℚ)) j c = 0 := by
  simp [entry]

theorem entry_cons_zero (r : List ℚ) (rs : List (List ℚ)) (c : Nat) :
    entry (r :: rs) 0 c = r.getD c 0 := by
  simp [entry]

theorem entry_cons_succ (r : List ℚ) (rs : List (List ℚ)) (j c : Nat) :
    entry (r :: rs) (j + 1) c = entry rs j c := by
  simp [entry]

theorem getD_set_q (l : List ℚ) (i c : Nat) (v : ℚ) :
    (l.set i v).getD c 0 = if c = i ∧ c < l.length then v else l.getD c 0 := by
  induction l generalizing i c with
  | nil => simp
  | cons x xs ih =>
    cases i with
    | zero =>
      cases c with
      | zero => simp
      | succ c => simp
    | succ i =>
      cases c with
      | zero => simp
      | succ c =>
        simp only [List.set, List.getD_cons_succ, List.length_cons]
        rw [ih i c]
        have hiff : (c = i ∧ c < xs.length) ↔ (c + 1 = i + 1 ∧ c + 1 < xs.length + 1) := by
          omega
        rw [if_congr hiff rfl rfl]

theorem length_assignFirstRows (m : List (List ℚ)) (len i : Nat) :
    (assignFirstRows m len i).length = m.length := by
  induction m generalizing len with
  | nil => simp [assignFirstRows]
  | cons r rs ih =>
    cases len with
    | zero => simp [assignFirstRows]
    | succ n => simp [assignFirstRows, ih]

theorem rowlen_assignFirstRows (m : List (List ℚ)) (len i j : Nat) :
    ((assignFirstRows m len i).getD j []).length = (m.getD j []).length := by
  induction m generalizing len j with
  | nil => simp [assignFirstRows]
  | cons r rs ih =>
    cases len with
    | zero => simp [assignFirstRows]
    | succ n =>
      cases j with
      | zero => simp [assignFirstRows, List.getD_cons_zero]
      | succ j =>
        simp only [assignFirstRows, List.getD_cons_succ]
        exact ih n j

theorem entry_assignFirstRows (m : List (List ℚ)) (len i j c : Nat) :
    entry (assignFirstRows m len i) j c =
      if j < len ∧ c = i ∧ c < (m.getD j []).length then 1 else entry m j c := by
  induction m generalizing len j with
  | nil =>
    simp only [assignFirstRows, entry_nil, List.getD_nil, List.length_nil]
    have hne : ¬(j < len ∧ c = i ∧ c < 0) := by omega
    rw [if_neg hne]
  | cons r rs ih =>
    cases len with
    | zero =>
      simp only [assignFirstRows]
      have hne : ¬(j < 0 ∧ c = i ∧ c < ((r :: rs).getD j []).length) := by omega
      rw [if_neg hne]
    | succ n =>
      cases j with
      | zero =>
        simp only [assignFirstRows, entry_cons_zero, List.getD_cons_zero]
        rw [getD_set_q]
        have hiff : (c = i ∧ c < r.length) ↔ (0 < n + 1 ∧ c = i ∧ c < r.length) := by omega
        rw [if_congr hiff rfl rfl]
      | succ j =>
        simp only [assignFirstRows, entry_cons_succ, List.getD_cons_succ]
        rw [ih n j]
        have hiff : (j < n ∧ c = i ∧ c < (rs.getD j []).length) ↔
            (j + 1 < n + 1 ∧ c = i ∧ c < (rs.getD j []).length) := by omega
        rw [if_congr hiff rfl rfl]

theorem length_applyMaskLoop (ts : List Nat) :
    ∀ (m : List (List ℚ)) (maxLen i0 : Nat),
      (applyMaskLoop m ts maxLen i0).length = m.length := by
  induction ts with
  | nil =>
    intro m maxLen i0
    simp [applyMaskLoop]
  | cons t ts ih =>
    intro m maxLen i0
    simp only [applyMaskLoop]
    rw [ih, length_assignFirstRows]

theorem rowlen_applyMaskLoop (ts : List Nat) :
    ∀ (m : List (List ℚ)) (maxLen i0 j : Nat),
      ((applyMaskLoop m ts maxLen i0).getD j []).length = (m.getD j []).length := by
  induction ts with
  | nil =>
    intro m maxLen i0 j
    simp [applyMaskLoop]
  | cons t ts ih =>
    intro m maxLen i0 j
    simp only [applyMaskLoop]
    rw [ih, rowlen_assignFirstRows]

theorem entry_applyMaskLoop_lt (ts : List Nat) :
    ∀ (m : List (List ℚ)) (maxLen i0 j c : Nat), c < i0 →
      entry (applyMaskLoop m ts maxLen i0) j c = entry m j c := by
  induction ts with
  | nil =>
    intro m maxLen i0 j c _
    simp [applyMaskLoop]
  | cons t ts ih =>
    intro m maxLen i0 j c hc
    simp only [applyMaskLoop]
    rw [ih _ _ _ _ _ (by omega), entry_assignFirstRows]
    have hne : ¬(j < min t maxLen ∧ c = i0 ∧ c < (m.getD j []).length) := by omega
    rw [if_neg hne]

theorem entry_applyMaskLoop (ts : List Nat) :
    ∀ (m : List (List ℚ)) (maxLen i0 k j : Nat), k < ts.length →
      entry (applyMaskLoop m ts maxLen i0) j (i0 + k) =
        if j < min (ts.getD k 0) maxLen ∧ i0 + k < (m.getD j []).length then 1
        else entry m j (i0 + k) := by
  induction ts with
  | nil =>
    intro m maxLen i0 k j hk
    simp at hk
  | cons t ts ih =>
    intro m maxLen i0 k j hk
    cases k with
    | zero =>
      simp only [applyMaskLoop, Nat.add_zero, List.getD_cons_zero]
      rw [entry_applyMaskLoop_lt ts _ maxLen (i0 + 1) j i0 (by omega),
        entry_assignFirstRows]
      have hiff : (j < min t maxLen ∧ i0 = i0 ∧ i0 < (m.getD j []).length) ↔
          (j < min t maxLen ∧ i0 < (m.getD j []).length) := by
        constructor
        · rintro ⟨h1, _, h3⟩; exact ⟨h1, h3⟩
        · rintro ⟨h1, h3⟩; exact ⟨h1, rfl, h3⟩
      rw [if_congr hiff rfl rfl]
    | succ k =>
      simp only [applyMaskLoop, List.getD_cons_succ]
      have harith : i0 + (k + 1) = (i0 + 1) + k := by omega
      rw [harith, ih _ maxLen (i0 + 1) k j (by simpa using hk)]
      rw [rowlen_assignFirstRows, entry_assignFirstRows]
      have hne : ¬(j < min t maxLen ∧ i0 + 1 + k = i0 ∧
          i0 + 1 + k < (m.getD j []).length) := by omega
      rw [if_neg hne]

theorem getD_replicate_zero (b c : Nat) : (List.replicate b (0 : ℚ)).getD c 0 = 0 := by
  induction b generalizing c with
  | zero => simp
  | succ b ih =>
    cases c with
    | zero => simp [List.replicate_succ]
    | succ c =>
      rw [List.replicate_succ, List.getD_cons_succ]
      exact ih c

theorem entry_mask_zero (a b j c : Nat) :
    entry (List.replicate a (List.replicate b (0 : ℚ))) j c = 0 := by
  induction a generalizing j with
  | zero => simp [entry]
  | succ a ih =>
    cases j with
    | zero =>
      rw [List.replicate_succ, entry_cons_zero]
      exact getD_replicate_zero b c
    | succ j =>
      rw [List.replicate_succ, entry_cons_succ]
      exact ih j

theorem rowlen_mask_zero (a b j : Nat) :
    ((List.replicate a (List.replicate b (0 : ℚ))).getD j []).length =
      if j < a then b else 0 := by
  induction a generalizing j with
  | zero => simp
  | succ a ih =>
    cases j with
    | zero => simp [List.replicate_succ, List.getD_cons_zero]
    | succ j =>
      rw [List.replicate_succ, List.getD_cons_succ, ih j]
      have hiff : (j < a) ↔ (j + 1 < a + 1) := by omega
      rw [if_congr hiff rfl rfl]

/-- The entry characterization of the mask: inside the batch, entry `(j, i)`
is 1 exactly on the first `min(len_i, max_length)` rows of column `i`. -/
theorem actions_mask_entry (tlens : List Nat) (maxLen i j : Nat) (hi : i < tlens.length) :
    entry (actions_mask tlens maxLen) j i =
      if j < min (tlens.getD i 0) maxLen then 1 else 0 := by
  have h := entry_applyMaskLoop tlens
    (List.replicate maxLen (List.replicate tlens.length 0)) maxLen 0 i j hi
  simp only [Nat.zero_add] at h
  rw [rowlen_mask_zero, entry_mask_zero] at h
  rw [actions_mask, h]
  by_cases hj : j < min (tlens.getD i 0) maxLen
  · have hjm : j < maxLen := lt_of_lt_of_le hj (Nat.min_le_right _ _)
    rw [if_pos hj, if_pos]
    exact ⟨hj, by rw [if_pos hjm]; omega⟩
  · rw [if_neg hj, if_neg]
    intro hcon
    exact hj hcon.1

theorem actions_mask_length (tlens : List Nat) (maxLen : Nat) :
    (actions_mask tlens maxLen).length = maxLen := by
  rw [actions_mask, length_applyMaskLoop, List.length_replicate]

theorem actions_mask_rowlen (tlens : List Nat) (maxLen j : Nat) (hj : j < maxLen) :
    ((actions_mask tlens maxLen).getD j []).length = tlens.length := by
  rw [actions_mask, rowlen_applyMaskLoop, rowlen_mask_zero, if_pos hj]

/-- Column `i` of the mask, read top to bottom, is the indicator of
`j < min(len_i, max_length)` over the `max_length` rows. -/
theorem colOf_actions_mask (tlens : List Nat) (maxLen i : Nat) (hi : i < tlens.length) :
    colOf (actions_mask tlens maxLen) i =
      (List.range maxLen).map
        (fun j => if j < min (tlens.getD i 0) maxLen then (1 : ℚ) else 0) := by
  apply List.ext_getElem?
  intro j
  rw [colOf, List.getElem?_map, List.getElem?_map]
  by_cases hj : j < maxLen
  · rw [List.getElem?_range hj]
    have hlen : j < (actions_mask tlens maxLen).length := by
      rw [actions_mask_length]
      exact hj
    rw [List.getElem?_eq_getElem hlen]
    simp only [Option.map_some']
    have hrow : (actions_mask tlens maxLen).getD j [] = (actions_mask tlens maxLen)[j] := by
      rw [List.getD_eq_getElem?_getD, List.getElem?_eq_getElem hlen]
      rfl
    have hent := actions_mask_entry tlens maxLen i j hi
    rw [entry, hrow] at hent
    rw [hent]
  · have hj' : maxLen ≤ j := Nat.le_of_not_lt hj
    rw [List.getElem?_eq_none (by rw [actions_mask_length]; exact hj'),
      List.getElem?_eq_none (by rw [List.length_range]; exact hj')]
    simp

/-- Counting 1s in an indicator column of height `n` with cutoff `k`. -/
theorem count_ones_range (n k : Nat) :
    ((List.range n).map (fun j => if j < k then (1 : ℚ) else 0)).count 1 = min k n := by
  induction n with
  | zero => simp
  | succ n ih =>
    rw [List.range_succ, List.map_append, List.count_append, ih]
    by_cases hn : n < k
    · simp only [List.map_cons, List.map_nil, if_pos hn]
      have h1 : ([(1 : ℚ)].count 1) = 1 := by decide
      rw [h1]
      omega
    · simp only [List.map_cons, List.map_nil, if_neg hn]
      have h0 : ([(0 : ℚ)].count 1) = 0 := by decide
      rw [h0]
      omega

/-- C4: for every batch of traversal lengths, the actions mask has shape
`(max_length, batch_size)`, and column `i` holds exactly
`min(len_i, max_length)` ones, contiguous from row 0, zeros elsewhere. -/
theorem c4_actions_mask (tlens : List Nat) (maxLen i : Nat) (hi : i < tlens.length) :
    (actions_mask tlens maxLen).length = maxLen
    ∧ (∀ row ∈ actions_mask tlens maxLen, row.length = tlens.length)
    ∧ (colOf (actions_mask tlens maxLen) i).count 1 = min (tlens.getD i 0) maxLen
    ∧ ∀ j, j < maxLen →
        entry (actions_mask tlens maxLen) j i =
          if j < min (tlens.getD i 0) maxLen then 1 else 0 := by
  refine ⟨actions_mask_length tlens maxLen, ?_, ?_, ?_⟩
  · intro row hrow
    rw [List.mem_iff_getElem] at hrow
    obtain ⟨j, hj, hrow⟩ := hrow
    have hjm : j < maxLen := by
      rw [actions_mask_length] at hj
      exact hj
    have hlen := actions_mask_rowlen tlens maxLen j hjm
    rw [List.getD_eq_getElem?_getD, List.getElem?_eq_getElem hj] at hlen
    rw [← hrow]
    exact hlen
  · rw [colOf_actions_mask tlens maxLen i hi, count_ones_range]
    omega
  · intro j _
    exact actions_mask_entry tlens maxLen i j hi

/-- C4 witness: traversal lengths `[2, 9]` (the second exceeding
`max_length = 5`), column 1. -/
theorem c4_actions_mask_witness :
    (1 < ([2, 9] : List Nat).length)
    ∧ ((actions_mask [2, 9] 5).length = 5
        ∧ (∀ row ∈ actions_mask [2, 9] 5, row.length = ([2, 9] : List Nat).length)
        ∧ (colOf (actions_mask [2, 9] 5) 1).count 1 = min (([2, 9] : List Nat).getD 1 0) 5
        ∧ ∀ j, j < 5 →
            entry (actions_mask [2, 9] 5) j 1 =
              if j < min (([2, 9] : List Nat).getD 1 0) 5 then 1 else 0) :=
  ⟨by decide, c4_actions_mask [2, 9] 5 1 (by decide)⟩

/-! ## The training loop (train_gym.py lines 151-319)

Floats become ℚ.  The externals that `learn` calls — the gym environment
(`reset`/`step`/`render`), the controller (`sample`, `max_length`) and Program
execution — are supplied through `Config`.  The loop's mutable variables form
`LoopState`; `rBest`/`baseRBest` start at `-np.inf`, modelled as `none` and
folded with `optMax`.  One epoch emits a trace of the loop's observable
actions so that ordering claims are statements about lists of events. -/

structure Config where
  alpha : ℚ
  bJumpstart : Bool
  earlyStopping : Bool
  /-- The `threshold` parameter of `learn`: accepted (default `1e-12`) but
  never read anywhere in the loop body — the early-stopping cutoff is the
  literal 90 of line 274. -/
  threshold : ℚ
  numCores : Int
  cpuCount : Int
  library : List String
  /-- `controller.sample(batch_size)` for each epoch index (external). -/
  sampleFn : Nat → List (List Nat)
  /-- `controller.max_length` (external). -/
  maxLength : Nat
  /-- `env.step : state → action → (state, reward, done)` (external; `done`
  is never consulted by the loop). -/
  stepFn : ℚ → ℚ → ℚ × ℚ × Bool
  /-- `env.reset()` (external, deterministic). -/
  resetState : ℚ
  /-- Whether `env.render()` returns normally; line 161 calls it unguarded. -/
  renderOk : Bool
  /-- Modelled from the spec: §4.2 `Program.execute` (in `dsr/program.py`,
  absent from the sources) — a pure function of the program and the input. -/
  execFn : Program → ℚ → ℚ
  nEpochs : Nat

structure LoopState where
  gymStates : ℚ
  b : Option ℚ
  rBest : Option ℚ
  baseRBest : Option ℚ
  prevRBest : Option ℚ
  prevBaseRBest : Option ℚ
  pRBest : Option Program
  pBaseRBest : Option Program
  /-- The binding of the loop variable `base_r`: `none` before its first
  assignment (line 187), `some` of the current reward array afterwards. -/
  baseR : Option (List ℚ)
  deriving DecidableEq

/-- The eleven statistics of one rollout step, in the column order of the
output log header (line 129). -/
structure StepStats where
  base_r_best : ℚ
  base_r_max : ℚ
  base_r_avg_full : ℚ
  base_r_avg_sub : ℚ
  r_best : ℚ
  r_max : ℚ
  r_avg_full : ℚ
  r_avg_sub : ℚ
  l_avg_full : ℚ
  l_avg_sub : ℚ
  baseline : ℚ
  deriving DecidableEq

/-- The row written by `np.savetxt` (lines 213-225). -/
def statsToList (s : StepStats) : List ℚ :=
  [s.base_r_best, s.base_r_max, s.base_r_avg_full, s.base_r_avg_sub, s.r_best,
   s.r_max, s.r_avg_full, s.r_avg_sub, s.l_avg_full, s.l_avg_sub, s.baseline]

/-- Observable actions of the loop, tagged with the rollout-step index. -/
inductive Ev where
  | render : Ev
  | sample : Ev
  | optimizeAll : Ev
  | envStep : Nat → List Program → Ev
  | rewardAgg : Nat → Ev
  | baselineUpd : Nat → Ev
  | logWrite : Nat → List ℚ → Ev
  | maskBuild : Nat → Ev
  | trainStep : Nat → Ev
  | bestTrack : Nat → Ev
  | verifyStep : Nat → Program → Ev
  | envReset : Ev
  deriving DecidableEq

/-- Line 206: `b = np.mean(r) if b is None else alpha*np.mean(r) + (1 - alpha)*b`. -/
def baselineUpdate (b : Option ℚ) (alpha : ℚ) (r : List ℚ) : ℚ :=
  match b with
  | none => mean r
  | some bb => alpha * mean r + (1 - alpha) * bb

/-- The scalar reward the environment returns at the current step
(lines 183-184: the action is `programs[0].execute(state)`). -/
def stepReward (cfg : Config) (progs : List Program) (st : LoopState) : ℚ :=
  (cfg.stepFn st.gymStates (cfg.execFn progs.headI st.gymStates)).2.1

/-- Line 188: `r = np.array([base_r[0] - p.complexity for p in programs])`. -/
def shapedRewards (cfg : Config) (progs : List Program) (st : LoopState) : List ℚ :=
  progs.map (fun p => [stepReward cfg progs st].headI - p.complexity)

/-- The verification rollout of lines 280-287: `fuel` environment steps driven
by the fixed program `p`, no training.  `t` is the running test-step index. -/
def verifyRollout (cfg : Config) (p : Program) : Nat → Nat → ℚ → List Ev × ℚ
  | _, 0, gs => ([], gs)
  | t, Nat.succ n, gs =>
      let out := cfg.stepFn gs (cfg.execFn p gs)
      let rest := verifyRollout cfg p (t + 1) n out.1
      (Ev.verifyStep t p :: rest.1, rest.2)

/-- Lines 273-291: when early stopping fires, the verification rollout (only
when `iteration > 100`, after a reset at line 279), then the reset of line 290. -/
def earlyStopTrace (cfg : Config) (triggered : Bool) (it : Nat) (best : Program) : List Ev :=
  if triggered then
    (if it > 100 then Ev.envReset :: (verifyRollout cfg best 0 100 cfg.resetState).1 else [])
      ++ [Ev.envReset]
  else []

/-- The seven actions of the body of one rollout step, in source order:
environment step (183-184), reward aggregation (186-203), baseline update
(206), log write (209-225), mask construction (227-231), controller training
step (236), best-expression tracking (241-251). -/
def stepTraceCore (s : Nat) (progs : List Program) (row : List ℚ) : List Ev :=
  [Ev.envStep s progs, Ev.rewardAgg s, Ev.baselineUpd s, Ev.logWrite s row,
   Ev.maskBuild s, Ev.trainStep s, Ev.bestTrack s]

/-- Everything one rollout step produces. -/
structure RolloutResult where
  trace : List Ev
  st : LoopState
  brk : Bool
  stats : StepStats
  r_pre : List ℚ
  r : List ℚ
  base_r : List ℚ
  mask : List (List ℚ)

/-- One iteration of the `for step in range(100)` body (lines 180-291). -/
def rolloutStep (cfg : Config) (it s : Nat) (progs : List Program) (st : LoopState) :
    RolloutResult :=
  let base_r : List ℚ := [stepReward cfg progs st]
  let r_pre : List ℚ := shapedRewards cfg progs st
  let l : List Nat := progs.map (fun p => p.traversal.length)
  let base_r_max := maxQ base_r
  let baseRBest2 := optMax st.baseRBest base_r_max
  let r_max := maxQ r_pre
  let rBest2 := optMax st.rBest r_max
  let r2 := clipR r_pre
  let b2 := baselineUpdate st.b cfg.alpha r2
  let stats : StepStats :=
    { base_r_best := baseRBest2
      base_r_max := base_r_max
      base_r_avg_full := mean base_r
      base_r_avg_sub := mean base_r
      r_best := rBest2
      r_max := r_max
      r_avg_full := mean r_pre
      r_avg_sub := mean r2
      l_avg_full := mean (l.map (fun n => (n : ℚ)))
      l_avg_sub := mean (l.map (fun n => (n : ℚ)))
      baseline := b2 }
  let pR2 : Option Program :=
    match st.prevRBest with
    | none => some (progs.getD (argmaxQ r2) pdefault)
    | some pv => if r_max > pv then some (progs.getD (argmaxQ r2) pdefault) else st.pRBest
  let pB2 : Option Program :=
    match st.prevBaseRBest with
    | none => some (progs.getD (argmaxQ base_r) pdefault)
    | some pv =>
        if base_r_max > pv then some (progs.getD (argmaxQ base_r) pdefault) else st.pBaseRBest
  let triggered := cfg.earlyStopping && decide (base_r.headI > 90)
  { trace := stepTraceCore s progs (statsToList stats)
      ++ earlyStopTrace cfg triggered it (pR2.getD pdefault)
    st := { gymStates :=
              if triggered then cfg.resetState
              else (cfg.stepFn st.gymStates (cfg.execFn progs.headI st.gymStates)).1
            b := some b2
            rBest := some rBest2
            baseRBest := some baseRBest2
            prevRBest := some rBest2
            prevBaseRBest := some baseRBest2
            pRBest := pR2
            pBaseRBest := pB2
            baseR := some base_r }
    brk := triggered
    stats := stats
    r_pre := r_pre
    r := r2
    base_r := base_r
    mask := actions_mask l cfg.maxLength }

/-- The rollout loop from step `s` with the given fuel (the loop of line 180
has fuel 100); `break` stops it. -/
def rolloutFrom (cfg : Config) (it : Nat) (progs : List Program) :
    Nat → Nat → LoopState → List Ev × LoopState
  | _, 0, st => ([], st)
  | s, Nat.succ fuel, st =>
      let res := rolloutStep cfg it s progs st
      if res.brk then (res.trace, res.st)
      else
        let rest := rolloutFrom cfg it progs (s + 1) fuel res.st
        (res.trace ++ rest.1, rest.2)

/-- Modelled from the spec: §4.3 — `work(p) = p.optimize()` followed by
`p.set_constants(...)` turns an un-optimized program into its optimized
version. -/
def optimizeProgram (p : Program) : Program := { p with optimized := true }

/-- Reattaching pool results to the batch (lines 177-178); results are keyed
by the §4.2 structural identity, the traversal.  Whenever this is reached the
`optimized` list is empty (see `programsToOptimize`), so it leaves the batch
unchanged. -/
def applyOptimizedConstants (programs optimized : List Program) : List Program :=
  programs.map (fun p =>
    match optimized.find? (fun q => decide (q.traversal = p.traversal)) with
    | some q => q
    | none => p)

/-- One epoch (lines 159-178 plus the rollout loop): render, sample, build
and optimize the batch (serially at construction when there is no pool,
through the pool dispatch otherwise), then up to 100 rollout steps. -/
def epoch (cfg : Config) (it : Nat) (st : LoopState) :
    Except Unit (List Ev × LoopState) :=
  if cfg.renderOk then
    match createPool cfg.library cfg.numCores cfg.cpuCount with
    | none =>
        let progs := (cfg.sampleFn it).map (fun a => fromTokens a true)
        let rollout := rolloutFrom cfg it progs 0 100 st
        Except.ok (Ev.render :: Ev.sample :: Ev.optimizeAll :: rollout.1, rollout.2)
    | some _ =>
        let progs0 := (cfg.sampleFn it).map (fun a => fromTokens a false)
        match programsToOptimize progs0 st.baseR with
        | Except.error e => Except.error e
        | Except.ok toOpt =>
            let progs := applyOptimizedConstants progs0 (toOpt.map optimizeProgram)
            let rollout := rolloutFrom cfg it progs 0 100 st
            Except.ok (Ev.render :: Ev.sample :: Ev.optimizeAll :: rollout.1, rollout.2)
  else Except.error ()

/-- Lines 153-158: the state before the first epoch. -/
def initState (cfg : Config) : LoopState :=
  { gymStates := cfg.resetState
    b := if cfg.bJumpstart then none else some 0
    rBest := none
    baseRBest := none
    prevRBest := none
    prevBaseRBest := none
    pRBest := none
    pBaseRBest := none
    baseR := none }

/-- The epoch loop of line 159 (`for iteration in range(n_epochs)`), starting
at epoch `it` with `n` epochs left.  An uncaught exception in an epoch aborts
the whole run. -/
def learnFrom (cfg : Config) : Nat → Nat → LoopState → Except Unit (List Ev × LoopState)
  | _, 0, st => Except.ok ([], st)
  | it, Nat.succ n, st =>
      match epoch cfg it st with
      | Except.error e => Except.error e
      | Except.ok out =>
          match learnFrom cfg (it + 1) n out.2 with
          | Except.error e => Except.error e
          | Except.ok rest => Except.ok (out.1 ++ rest.1, rest.2)

/-- The whole training loop `learn`. -/
def learn (cfg : Config) : Except Unit (List Ev × LoopState) :=
  learnFrom cfg 0 cfg.nEpochs (initState cfg)

/-- The trace of a successful run ([] on error). -/
def okTrace (e : Except Unit (List Ev × LoopState)) : List Ev :=
  match e with
  | Except.ok out => out.1
  | Except.error _ => []

/-- The final state of a successful run. -/
def okSt (e : Except Unit (List Ev × LoopState)) : LoopState :=
  match e with
  | Except.ok out => out.2
  | Except.error _ => ⟨0, none, none, none, none, none, none, none, none⟩

def isVerifyEv : Ev → Bool
  | Ev.verifyStep _ _ => true
  | _ => false

def isTrainEv : Ev → Bool
  | Ev.trainStep _ => true
  | _ => false

/-! ## Concrete instances used by witnesses and counterexamples -/

def cfgBase : Config :=
  { alpha := 1 / 10
    bJumpstart := true
    earlyStopping := false
    threshold := 1 / 1000000000000
    numCores := 1
    cpuCount := 4
    library := ["add", "sin"]
    sampleFn := fun _ => [[0, 1, 1]]
    maxLength := 5
    stepFn := fun s a => (s + a, 1, false)
    resetState := 0
    renderOk := true
    execFn := fun p s => s + (p.traversal.length : ℚ)
    nEpochs := 2 }

def cfgNoJump : Config := { cfgBase with bJumpstart := false }

/-- An environment whose reward is always 0, for the clipping counterexample. -/
def cfgZeroReward : Config := { cfgBase with stepFn := fun s _ => (s, 0, false) }

/-- A program whose complexity penalty pushes the shaped reward far below the
`-1e6` floor. -/
def pHuge : Program := { traversal := [0], constants := [], optimized := true, complexity := 2000000 }

/-! ## C1 — the parallel constant-optimization dispatch -/

/-- C1: the worker-pool dispatch is broken in the code.  With a batch of two
structurally equal un-optimized programs (one unique traversal), once `base_r`
is bound (every epoch after the first) the dispatch list is *empty* — the
optimizer is invoked zero times, not once per unique traversal — because line
175 filters on `base_r is None` where `base_r` is the loop's reward-array
variable; and on the first epoch, where `base_r` is still unbound, the same
line raises UnboundLocalError.  The deduplication itself would keep exactly
one representative. -/
theorem c1_pool_dispatch_bug :
    programsToOptimize [fromTokens [7] false, fromTokens [7] false] (some [(5 : ℚ)])
        = Except.ok []
    ∧ programsToOptimize [fromTokens [7] false, fromTokens [7] false] none
        = Except.error ()
    ∧ (dedupByTraversal [fromTokens [7] false, fromTokens [7] false]).length = 1 :=
  ⟨rfl, rfl, rfl⟩

/-! ## C2 — the baseline scalar -/

/-- C2: with jump-start disabled the baseline is 0 before any update; with
jump-start enabled its first computed value is the batch mean of the step's
(clipped) shaped-reward vector; every update is exactly
`alpha * mean r + (1 - alpha) * b_prev`; and the step's new baseline is the
update applied to the clipped shaped rewards of that step. -/
theorem c2_baseline (cfg cfgJ : Config) (it s : Nat) (progs : List Program)
    (st : LoopState) (alpha2 x : ℚ) (r2 : List ℚ)
    (hb : cfg.bJumpstart = false) (hj : cfgJ.bJumpstart = true) :
    (initState cfg).b = some 0
    ∧ (initState cfgJ).b = none
    ∧ baselineUpdate none alpha2 r2 = mean r2
    ∧ baselineUpdate (some x) alpha2 r2 = alpha2 * mean r2 + (1 - alpha2) * x
    ∧ (rolloutStep cfg it s progs st).st.b
        = some (baselineUpdate st.b cfg.alpha
            (clipR (progs.map (fun p => stepReward cfg progs st - p.complexity)))) := by
  refine ⟨by simp [initState, hb], by simp [initState, hj], rfl, rfl, rfl⟩

/-- C2 witness at concrete inputs. -/
theorem c2_baseline_witness :
    (initState cfgNoJump).b = some 0
    ∧ (initState cfgBase).b = none
    ∧ baselineUpdate none (1 / 10) [(2 : ℚ)] = mean [(2 : ℚ)]
    ∧ baselineUpdate (some 3) (1 / 10) [(2 : ℚ)]
        = (1 / 10) * mean [(2 : ℚ)] + (1 - 1 / 10) * 3
    ∧ (rolloutStep cfgNoJump 0 0 [fromTokens [1] true] (initState cfgNoJump)).st.b
        = some (baselineUpdate (initState cfgNoJump).b cfgNoJump.alpha
            (clipR ([fromTokens [1] true].map
              (fun p => stepReward cfgNoJump [fromTokens [1] true] (initState cfgNoJump)
                - p.complexity)))) :=
  c2_baseline cfgNoJump cfgBase 0 0 [fromTokens [1] true] (initState cfgNoJump)
    (1 / 10) 3 [(2 : ℚ)] rfl rfl

/-! ## C3 — where the `-1e6` floor applies -/

/-- C3 counterexample: a shaped reward of `-2e6` is reported as `-2e6`, not
`-1e6`, in the full-batch max `r_max` and full-batch average `r_avg_full`
(and in the corresponding output-log column), because lines 195-201 compute
them *before* the clip of line 203. -/
theorem c3_counterexample :
    (rolloutStep cfgZeroReward 0 0 [pHuge] (initState cfgZeroReward)).r_pre = [-2000000]
    ∧ ((-2000000 : ℚ) < -1000000)
    ∧ (rolloutStep cfgZeroReward 0 0 [pHuge] (initState cfgZeroReward)).stats.r_max
        = -2000000
    ∧ (rolloutStep cfgZeroReward 0 0 [pHuge] (initState cfgZeroReward)).stats.r_avg_full
        = -2000000
    ∧ (statsToList (rolloutStep cfgZeroReward 0 0 [pHuge] (initState cfgZeroReward)).stats).getD 5 0
        = -2000000
    ∧ ¬((-2000000 : ℚ) = -1000000) := by
  refine ⟨?_, by norm_num, ?_, ?_, ?_, by norm_num⟩ <;>
    norm_num [rolloutStep, cfgZeroReward, cfgBase, pHuge, initState, stepReward,
      shapedRewards, statsToList, mean, maxQ, optMax, clipR, baselineUpdate,
      List.getD_cons_succ, List.getD_cons_zero]

/-- C3 amended: the `-1e6` floor applies exactly to what is computed after
the clip of line 203 — the clipped vector fed to the baseline and the
sub-batch average `r_avg_sub` — while `r_max` and `r_avg_full` (and their
logged values) are computed from the unclipped shaped rewards. -/
theorem c3_amended_clip (cfg : Config) (it s : Nat) (progs : List Program) (st : LoopState) :
    (rolloutStep cfg it s progs st).r
        = clipR (progs.map (fun p => stepReward cfg progs st - p.complexity))
    ∧ (∀ x ∈ clipR (progs.map (fun p => stepReward cfg progs st - p.complexity)),
        -1000000 ≤ x)
    ∧ (∀ (i : Nat) (x : ℚ),
        (progs.map (fun p => stepReward cfg progs st - p.complexity))[i]? = some x →
        x < -1000000 →
        (clipR (progs.map (fun p => stepReward cfg progs st - p.complexity)))[i]?
          = some ((-1000000 : ℚ)))
    ∧ (rolloutStep cfg it s progs st).stats.r_avg_sub
        = mean (clipR (progs.map (fun p => stepReward cfg progs st - p.complexity)))
    ∧ (rolloutStep cfg it s progs st).st.b
        = some (baselineUpdate st.b cfg.alpha
            (clipR (progs.map (fun p => stepReward cfg progs st - p.complexity))))
    ∧ (rolloutStep cfg it s progs st).stats.r_max
        = maxQ (progs.map (fun p => stepReward cfg progs st - p.complexity))
    ∧ (rolloutStep cfg it s progs st).stats.r_avg_full
        = mean (progs.map (fun p => stepReward cfg progs st - p.complexity)) := by
  refine ⟨rfl, ?_, ?_, rfl, rfl, rfl, rfl⟩
  · intro x hx
    rw [clipR, List.mem_map] at hx
    obtain ⟨y, _, hy⟩ := hx
    rw [← hy]
    exact le_max_right y (-1000000)
  · intro i x hi hx
    rw [clipR, List.getElem?_map, hi]
    have hmax : max x (-1000000) = -1000000 := max_eq_right (le_of_lt hx)
    rw [Option.map_some', hmax]

/-! ## C5 — the shape of `base_r` and the shaped rewards -/

/-- C5 counterexample: with a batch of two programs, `base_r` has length 1
(line 187 builds it from the single environment reward), not batch size 2. -/
theorem c5_counterexample :
    ([fromTokens [1] true, fromTokens [2, 3, 3] true].length = 2)
    ∧ (rolloutStep cfgBase 0 0 [fromTokens [1] true, fromTokens [2, 3, 3] true]
        (initState cfgBase)).base_r.length = 1
    ∧ ¬((1 : Nat) = 2) :=
  ⟨rfl, rfl, by decide⟩

/-- C5 amended: `base_r` is the length-1 vector holding the step's single
environment reward, and the shaped-reward vector has one entry per program,
`r_i = base_r[0] - complexity(program_i)`. -/
theorem c5_amended (cfg : Config) (it s : Nat) (progs : List Program) (st : LoopState) :
    (rolloutStep cfg it s progs st).base_r = [stepReward cfg progs st]
    ∧ (rolloutStep cfg it s progs st).base_r.length = 1
    ∧ (rolloutStep cfg it s progs st).r_pre
        = progs.map (fun p => (rolloutStep cfg it s progs st).base_r.headI - p.complexity)
    ∧ (rolloutStep cfg it s progs st).r_pre.length = progs.length := by
  refine ⟨rfl, rfl, rfl, by simp [rolloutStep, shapedRewards]⟩

/-! ## Trace lemmas for the rollout loop -/

theorem maxQ_singleton (x : ℚ) : maxQ [x] = x := rfl

theorem verifyRollout_length (cfg : Config) (p : Program) :
    ∀ (f t : Nat) (gs : ℚ), (verifyRollout cfg p t f gs).1.length = f := by
  intro f
  induction f with
  | zero =>
    intro t gs
    rfl
  | succ n ih =>
    intro t gs
    simp only [verifyRollout, List.length_cons, ih]

theorem mem_verifyRollout (cfg : Config) (p : Program) :
    ∀ (f t : Nat) (gs : ℚ) (ev : Ev), ev ∈ (verifyRollout cfg p t f gs).1 →
      ∃ u, ev = Ev.verifyStep u p := by
  intro f
  induction f with
  | zero =>
    intro t gs ev h
    simp [verifyRollout] at h
  | succ n ih =>
    intro t gs ev h
    simp only [verifyRollout, List.mem_cons] at h
    rcases h with h | h
    · exact ⟨t, h⟩
    · exact ih (t + 1) _ ev h

theorem mem_earlyStopTrace (cfg : Config) (trig : Bool) (it : Nat) (best : Program)
    (ev : Ev) (h : ev ∈ earlyStopTrace cfg trig it best) :
    (∃ u, ev = Ev.verifyStep u best) ∨ ev = Ev.envReset := by
  rw [earlyStopTrace] at h
  by_cases htrig : trig = true
  · rw [if_pos htrig] at h
    rw [List.mem_append] at h
    rcases h with h | h
    · by_cases hit : it > 100
      · rw [if_pos hit, List.mem_cons] at h
        rcases h with h | h
        · exact Or.inr h
        · exact Or.inl (mem_verifyRollout cfg best 100 0 cfg.resetState ev h)
      · rw [if_neg hit] at h
        simp at h
    · simp only [List.mem_singleton] at h
      exact Or.inr h
  · rw [if_neg htrig] at h
    simp at h

theorem rolloutStep_trace (cfg : Config) (it s : Nat) (progs : List Program) (st : LoopState) :
    (rolloutStep cfg it s progs st).trace
      = stepTraceCore s progs (statsToList (rolloutStep cfg it s progs st).stats)
        ++ earlyStopTrace cfg (rolloutStep cfg it s progs st).brk it
            (((rolloutStep cfg it s progs st).st.pRBest).getD pdefault) := rfl

theorem mem_stepTraceCore (s : Nat) (progs : List Program) (row : List ℚ) (ev : Ev) :
    ev ∈ stepTraceCore s progs row ↔
      ev = Ev.envStep s progs ∨ ev = Ev.rewardAgg s ∨ ev = Ev.baselineUpd s
      ∨ ev = Ev.logWrite s row ∨ ev = Ev.maskBuild s ∨ ev = Ev.trainStep s
      ∨ ev = Ev.bestTrack s := by
  simp [stepTraceCore]

/-- Everything a rollout step can emit, with the step indices it can carry. -/
theorem mem_rolloutStep_trace (cfg : Config) (it s : Nat) (progs : List Program)
    (st : LoopState) (ev : Ev) (h : ev ∈ (rolloutStep cfg it s progs st).trace) :
    ev = Ev.envStep s progs ∨ ev = Ev.rewardAgg s ∨ ev = Ev.baselineUpd s
    ∨ (∃ row, ev = Ev.logWrite s row) ∨ ev = Ev.maskBuild s ∨ ev = Ev.trainStep s
    ∨ ev = Ev.bestTrack s ∨ (∃ u q, ev = Ev.verifyStep u q) ∨ ev = Ev.envReset := by
  rw [rolloutStep_trace, List.mem_append] at h
  rcases h with h | h
  · rw [mem_stepTraceCore] at h
    rcases h with h | h | h | h | h | h | h
    · exact Or.inl h
    · exact Or.inr (Or.inl h)
    · exact Or.inr (Or.inr (Or.inl h))
    · exact Or.inr (Or.inr (Or.inr (Or.inl ⟨_, h⟩)))
    · exact Or.inr (Or.inr (Or.inr (Or.inr (Or.inl h))))
    · exact Or.inr (Or.inr (Or.inr (Or.inr (Or.inr (Or.inl h)))))
    · exact Or.inr (Or.inr (Or.inr (Or.inr (Or.inr (Or.inr (Or.inl h))))))
  · rcases mem_earlyStopTrace cfg _ it _ ev h with ⟨u, hu⟩ | hr
    · exact Or.inr (Or.inr (Or.inr (Or.inr (Or.inr (Or.inr (Or.inr (Or.inl ⟨u, _, hu⟩)))))))
    · exact Or.inr (Or.inr (Or.inr (Or.inr (Or.inr (Or.inr (Or.inr (Or.inr hr)))))))

/-- Classification of the events in a rollout-loop trace: each one belongs to
a step `j` with `s ≤ j < s + fuel` (verification events and resets are
untagged). -/
theorem mem_rolloutFrom (cfg : Config) (it : Nat) (progs : List Program) :
    ∀ (f s : Nat) (st : LoopState) (ev : Ev), ev ∈ (rolloutFrom cfg it progs s f st).1 →
      ∃ j, s ≤ j ∧ j < s + f ∧
        (ev = Ev.envStep j progs ∨ ev = Ev.rewardAgg j ∨ ev = Ev.baselineUpd j
          ∨ (∃ row, ev = Ev.logWrite j row) ∨ ev = Ev.maskBuild j ∨ ev = Ev.trainStep j
          ∨ ev = Ev.bestTrack j ∨ (∃ u q, ev = Ev.verifyStep u q) ∨ ev = Ev.envReset) := by
  intro f
  induction f with
  | zero =>
    intro s st ev h
    simp [rolloutFrom] at h
  | succ n ih =>
    intro s st ev h
    simp only [rolloutFrom] at h
    by_cases hb : (rolloutStep cfg it s progs st).brk = true
    · rw [if_pos hb] at h
      exact ⟨s, le_refl s, by omega, mem_rolloutStep_trace cfg it s progs st ev h⟩
    · rw [if_neg hb, List.mem_append] at h
      rcases h with h | h
      · exact ⟨s, le_refl s, by omega, mem_rolloutStep_trace cfg it s progs st ev h⟩
      · obtain ⟨j, hj1, hj2, hj3⟩ := ih (s + 1) _ ev h
        exact ⟨j, by omega, by omega, hj3⟩

/-- `baselineUpd s` precedes `trainStep s` inside one step's event block. -/
theorem bu_ts_sublist_core (s : Nat) (progs : List Program) (row : List ℚ) :
    [Ev.baselineUpd s, Ev.trainStep s].Sublist (stepTraceCore s progs row) := by
  rw [stepTraceCore]
  apply List.Sublist.cons
  apply List.Sublist.cons
  apply List.Sublist.cons₂
  apply List.Sublist.cons
  apply List.Sublist.cons
  apply List.Sublist.cons₂
  exact List.nil_sublist _

theorem trainStep_in_core (s i : Nat) (progs : List Program) (row : List ℚ)
    (h : Ev.trainStep i ∈ stepTraceCore s progs row) : i = s := by
  rw [mem_stepTraceCore] at h
  rcases h with h | h | h | h | h | h | h <;> simp_all

theorem trainStep_not_in_earlyStop (cfg : Config) (trig : Bool) (it i : Nat)
    (best : Program) (h : Ev.trainStep i ∈ earlyStopTrace cfg trig it best) : False := by
  rcases mem_earlyStopTrace cfg trig it best _ h with ⟨u, hu⟩ | hr
  · exact Ev.noConfusion hu
  · exact Ev.noConfusion hr

theorem trainStep_in_rolloutStep (cfg : Config) (it s i : Nat) (progs : List Program)
    (st : LoopState) (h : Ev.trainStep i ∈ (rolloutStep cfg it s progs st).trace) :
    i = s := by
  rw [rolloutStep_trace, List.mem_append] at h
  rcases h with h | h
  · exact trainStep_in_core s i progs _ h
  · exact absurd h (fun hh => trainStep_not_in_earlyStop cfg _ it i _ hh)

/-- In any rollout-loop trace, the baseline update of step `i` precedes the
controller training step of step `i`. -/
theorem baseline_before_train (cfg : Config) (it : Nat) (progs : List Program) :
    ∀ (f s : Nat) (st : LoopState) (i : Nat),
      Ev.trainStep i ∈ (rolloutFrom cfg it progs s f st).1 →
      [Ev.baselineUpd i, Ev.trainStep i].Sublist (rolloutFrom cfg it progs s f st).1 := by
  intro f
  induction f with
  | zero =>
    intro s st i h
    simp [rolloutFrom] at h
  | succ n ih =>
    intro s st i h
    simp only [rolloutFrom] at h ⊢
    by_cases hb : (rolloutStep cfg it s progs st).brk = true
    · rw [if_pos hb] at h ⊢
      have hi := trainStep_in_rolloutStep cfg it s i progs st h
      subst hi
      rw [rolloutStep_trace]
      exact (bu_ts_sublist_core i progs _).trans (List.sublist_append_left _ _)
    · rw [if_neg hb] at h ⊢
      rw [List.mem_append] at h
      rcases h with h | h
      · have hi := trainStep_in_rolloutStep cfg it s i progs st h
        subst hi
        refine List.Sublist.trans ?_ (List.sublist_append_left _ _)
        rw [rolloutStep_trace]
        exact (bu_ts_sublist_core i progs _).trans (List.sublist_append_left _ _)
      · exact (ih (s + 1) _ i h).trans (List.sublist_append_right _ _)

/-- The shape of a successful epoch: render, sample, optimize, then the
rollout-loop trace over a batch fixed for the whole epoch. -/
theorem epoch_ok_shape (cfg : Config) (it : Nat) (st : LoopState) (tr : List Ev)
    (st2 : LoopState) (h : epoch cfg it st = Except.ok (tr, st2)) :
    ∃ progs,
      tr = Ev.render :: Ev.sample :: Ev.optimizeAll :: (rolloutFrom cfg it progs 0 100 st).1
      ∧ st2 = (rolloutFrom cfg it progs 0 100 st).2 := by
  rw [epoch] at h
  by_cases hrender : cfg.renderOk = true
  · rw [if_pos hrender] at h
    cases hpool : createPool cfg.library cfg.numCores cfg.cpuCount with
    | none =>
      rw [hpool] at h
      rw [Except.ok.injEq, Prod.mk.injEq] at h
      exact ⟨(cfg.sampleFn it).map (fun a => fromTokens a true), h.1.symm, h.2.symm⟩
    | some pid =>
      rw [hpool] at h
      dsimp only at h
      cases hopt : programsToOptimize ((cfg.sampleFn it).map (fun a => fromTokens a false))
          st.baseR with
      | error e =>
        rw [hopt] at h
        exact absurd h (by simp)
      | ok toOpt =>
        rw [hopt] at h
        rw [Except.ok.injEq, Prod.mk.injEq] at h
        exact ⟨applyOptimizedConstants ((cfg.sampleFn it).map (fun a => fromTokens a false))
          (toOpt.map optimizeProgram), h.1.symm, h.2.symm⟩
  · rw [if_neg hrender] at h
    exact absurd h (by simp)

theorem sample_not_in_rollout (cfg : Config) (it : Nat) (progs : List Program)
    (f s : Nat) (st : LoopState) : Ev.sample ∉ (rolloutFrom cfg it progs s f st).1 := by
  intro hmem
  obtain ⟨j, _, _, hdis⟩ := mem_rolloutFrom cfg it progs f s st _ hmem
  rcases hdis with h | h | h | ⟨row, h⟩ | h | h | h | ⟨u, q, h⟩ | h
  all_goals exact Ev.noConfusion h

/-- A successful epoch samples the controller exactly once. -/
theorem epoch_sample_count (cfg : Config) (it : Nat) (st : LoopState) (tr : List Ev)
    (st2 : LoopState) (h : epoch cfg it st = Except.ok (tr, st2)) :
    tr.count Ev.sample = 1 := by
  obtain ⟨progs, htr, _⟩ := epoch_ok_shape cfg it st tr st2 h
  subst htr
  rw [List.count_cons, List.count_cons, List.count_cons,
    List.count_eq_zero.mpr (sample_not_in_rollout cfg it progs 100 0 st)]
  rfl

/-! ## C6 — ordering within an epoch -/

/-- C6: in every successful epoch, the controller is sampled exactly once;
constant optimization completes before every environment step; every
environment step of the epoch (at most 100 of them) uses the same batch of
programs; and within each rollout step the baseline update precedes the
controller training step. -/
theorem c6_epoch_order (cfg : Config) (it : Nat) (st : LoopState) (tr : List Ev)
    (st2 : LoopState) (h : epoch cfg it st = Except.ok (tr, st2)) :
    tr.count Ev.sample = 1
    ∧ (∀ i p, Ev.envStep i p ∈ tr →
        i < 100 ∧ [Ev.optimizeAll, Ev.envStep i p].Sublist tr)
    ∧ (∀ i p j q, Ev.envStep i p ∈ tr → Ev.envStep j q ∈ tr → p = q)
    ∧ (∀ i, Ev.trainStep i ∈ tr → [Ev.baselineUpd i, Ev.trainStep i].Sublist tr) := by
  obtain ⟨progs, htr, _⟩ := epoch_ok_shape cfg it st tr st2 h
  have hcount := epoch_sample_count cfg it st tr st2 h
  subst htr
  have henv : ∀ i p, Ev.envStep i p ∈ (rolloutFrom cfg it progs 0 100 st).1 →
      i < 100 ∧ p = progs := by
    intro i p hmem
    obtain ⟨j, _, hj2, hdis⟩ := mem_rolloutFrom cfg it progs 100 0 st _ hmem
    rcases hdis with hd | hd | hd | ⟨row, hd⟩ | hd | hd | hd | ⟨u, q, hd⟩ | hd
    all_goals first
      | (injection hd with h1 h2; subst h1; exact ⟨by omega, h2⟩)
      | exact Ev.noConfusion hd
  refine ⟨hcount, ?_, ?_, ?_⟩
  · intro i p hmem
    rw [List.mem_cons, List.mem_cons, List.mem_cons] at hmem
    rcases hmem with hd | hd | hd | hmem
    · exact Ev.noConfusion hd
    · exact Ev.noConfusion hd
    · exact Ev.noConfusion hd
    refine ⟨(henv i p hmem).1, ?_⟩
    apply List.Sublist.cons
    apply List.Sublist.cons
    apply List.Sublist.cons₂
    exact List.singleton_sublist.mpr hmem
  · intro i p j q hp hq
    rw [List.mem_cons, List.mem_cons, List.mem_cons] at hp hq
    rcases hp with hd | hd | hd | hp
    · exact Ev.noConfusion hd
    · exact Ev.noConfusion hd
    · exact Ev.noConfusion hd
    rcases hq with hd | hd | hd | hq
    · exact Ev.noConfusion hd
    · exact Ev.noConfusion hd
    · exact Ev.noConfusion hd
    rw [(henv i p hp).2, (henv j q hq).2]
  · intro i hmem
    rw [List.mem_cons, List.mem_cons, List.mem_cons] at hmem
    rcases hmem with hd | hd | hd | hmem
    · exact Ev.noConfusion hd
    · exact Ev.noConfusion hd
    · exact Ev.noConfusion hd
    apply List.Sublist.cons
    apply List.Sublist.cons
    apply List.Sublist.cons
    exact baseline_before_train cfg it progs 100 0 st i hmem

/-- An environment that always returns reward 100, so early stopping (when
enabled) fires on the first rollout step. -/
def cfgEarly : Config :=
  { cfgBase with earlyStopping := true, stepFn := fun s _ => (s, 100, false) }

/-- C6 witness: the epoch of `cfgEarly` at iteration 0 succeeds and its trace
satisfies all four ordering properties. -/
theorem c6_epoch_order_witness :
    (okTrace (epoch cfgEarly 0 (initState cfgEarly))).count Ev.sample = 1
    ∧ (∀ i p, Ev.envStep i p ∈ okTrace (epoch cfgEarly 0 (initState cfgEarly)) →
        i < 100 ∧ [Ev.optimizeAll, Ev.envStep i p].Sublist
          (okTrace (epoch cfgEarly 0 (initState cfgEarly))))
    ∧ (∀ i p j q, Ev.envStep i p ∈ okTrace (epoch cfgEarly 0 (initState cfgEarly)) →
        Ev.envStep j q ∈ okTrace (epoch cfgEarly 0 (initState cfgEarly)) → p = q)
    ∧ (∀ i, Ev.trainStep i ∈ okTrace (epoch cfgEarly 0 (initState cfgEarly)) →
        [Ev.baselineUpd i, Ev.trainStep i].Sublist
          (okTrace (epoch cfgEarly 0 (initState cfgEarly)))) :=
  c6_epoch_order cfgEarly 0 (initState cfgEarly)
    (okTrace (epoch cfgEarly 0 (initState cfgEarly)))
    (okSt (epoch cfgEarly 0 (initState cfgEarly))) rfl

/-! ## C9 — render failures -/

def cfgRenderFail : Config := { cfgBase with renderOk := false }

/-- C9 counterexample: `env.render()` is called unguarded at line 161, so a
render failure aborts not just the epoch but the whole run — the run does
*not* proceed to sampling. -/
theorem c9_counterexample :
    cfgRenderFail.renderOk = false
    ∧ learn cfgRenderFail = Except.error ()
    ∧ epoch cfgRenderFail 0 (initState cfgRenderFail) = Except.error () :=
  ⟨rfl, rfl, rfl⟩

/-- C9 amended: a failure raised by `env.render()` propagates out of the
loop: the epoch (and hence the run) aborts with that failure; nothing
catches it. -/
theorem c9_render_propagates (cfg : Config) (it : Nat) (st : LoopState)
    (h : cfg.renderOk = false) : epoch cfg it st = Except.error () := by
  simp [epoch, h]

/-- C9 witness at a concrete failing environment. -/
theorem c9_render_propagates_witness :
    cfgRenderFail.renderOk = false
    ∧ epoch cfgRenderFail 5 (initState cfgRenderFail) = Except.error () :=
  ⟨rfl, c9_render_propagates cfgRenderFail 5 (initState cfgRenderFail) rfl⟩

/-! ## C10 — pool creation and the serial path -/

/-- C10: the pool exists iff `"const"` is in the library and the resolved
core count (with `-1` resolved to the cpu count) exceeds 1; a program built
by the serial path carries optimization done at construction; and with no
pool, every epoch succeeds and every environment step of its trace uses the
serially constructed batch, each program built with `optimize=True`. -/
theorem c10_pool (cfg : Config) (it : Nat) (st : LoopState) (lib : List String)
    (nc cc : Int)
    (hpool : createPool cfg.library cfg.numCores cfg.cpuCount = none)
    (hrender : cfg.renderOk = true) :
    ((createPool lib nc cc).isSome = true ↔ ("const" ∈ lib ∧ 1 < resolveNumCores nc cc))
    ∧ (∀ a, (fromTokens a true).optimized = true)
    ∧ epoch cfg it st
        = Except.ok (Ev.render :: Ev.sample :: Ev.optimizeAll ::
            (rolloutFrom cfg it ((cfg.sampleFn it).map (fun a => fromTokens a true))
              0 100 st).1,
          (rolloutFrom cfg it ((cfg.sampleFn it).map (fun a => fromTokens a true))
            0 100 st).2)
    ∧ (∀ i p, Ev.envStep i p ∈ okTrace (epoch cfg it st) →
        p = (cfg.sampleFn it).map (fun a => fromTokens a true)
        ∧ ∀ q ∈ p, q.optimized = true) := by
  have hepoch : epoch cfg it st
      = Except.ok (Ev.render :: Ev.sample :: Ev.optimizeAll ::
          (rolloutFrom cfg it ((cfg.sampleFn it).map (fun a => fromTokens a true))
            0 100 st).1,
        (rolloutFrom cfg it ((cfg.sampleFn it).map (fun a => fromTokens a true))
          0 100 st).2) := by
    rw [epoch, if_pos hrender, hpool]
  refine ⟨?_, fun a => rfl, hepoch, ?_⟩
  · rw [createPool]
    by_cases hconst : "const" ∈ lib
    · rw [if_pos hconst]
      by_cases hnc : resolveNumCores nc cc > 1
      · simp [hnc, hconst]
      · simp [hnc, hconst]
    · simp [hconst]
  · intro i p hmem
    rw [hepoch] at hmem
    simp only [okTrace] at hmem
    rw [List.mem_cons, List.mem_cons, List.mem_cons] at hmem
    rcases hmem with hd | hd | hd | hmem
    · exact Ev.noConfusion hd
    · exact Ev.noConfusion hd
    · exact Ev.noConfusion hd
    obtain ⟨j, _, _, hdis⟩ := mem_rolloutFrom cfg it _ 100 0 st _ hmem
    rcases hdis with hd | hd | hd | ⟨row, hd⟩ | hd | hd | hd | ⟨u, q, hd⟩ | hd
    all_goals first
      | exact Ev.noConfusion hd
      | (injection hd with h1 h2
         refine ⟨h2, ?_⟩
         subst h2
         intro q hq
         rw [List.mem_map] at hq
         obtain ⟨a, _, ha⟩ := hq
         rw [← ha])
    rfl

/-- C10 witness: `cfgBase` has no `"const"` token, so no pool; the iff is
checked at library `["const"]`, `num_cores = -1`, 4 cpus. -/
theorem c10_pool_witness :
    ((createPool ["const"] (-1) 4).isSome = true
        ↔ ("const" ∈ (["const"] : List String) ∧ 1 < resolveNumCores (-1) 4))
    ∧ (∀ a, (fromTokens a true).optimized = true)
    ∧ epoch cfgBase 0 (initState cfgBase)
        = Except.ok (Ev.render :: Ev.sample :: Ev.optimizeAll ::
            (rolloutFrom cfgBase 0 ((cfgBase.sampleFn 0).map (fun a => fromTokens a true))
              0 100 (initState cfgBase)).1,
          (rolloutFrom cfgBase 0 ((cfgBase.sampleFn 0).map (fun a => fromTokens a true))
            0 100 (initState cfgBase)).2)
    ∧ (∀ i p, Ev.envStep i p ∈ okTrace (epoch cfgBase 0 (initState cfgBase)) →
        p = (cfgBase.sampleFn 0).map (fun a => fromTokens a true)
        ∧ ∀ q ∈ p, q.optimized = true) :=
  c10_pool cfgBase 0 (initState cfgBase) ["const"] (-1) 4 rfl rfl

/-! ## C7 — early stopping -/

/-- Every successful run of the epoch loop samples once per epoch, early
stopping or not: the inner `break` never shortens the epoch loop. -/
theorem learnFrom_sample_count (cfg : Config) :
    ∀ (n it : Nat) (st : LoopState) (tr : List Ev) (st2 : LoopState),
      learnFrom cfg it n st = Except.ok (tr, st2) → tr.count Ev.sample = n := by
  intro n
  induction n with
  | zero =>
    intro it st tr st2 h
    simp only [learnFrom] at h
    rw [Except.ok.injEq, Prod.mk.injEq] at h
    rw [← h.1]
    rfl
  | succ n ih =>
    intro it st tr st2 h
    simp only [learnFrom] at h
    cases hep : epoch cfg it st with
    | error e =>
      rw [hep] at h
      exact absurd h (by simp)
    | ok out =>
      rw [hep] at h
      dsimp only at h
      cases hlf : learnFrom cfg (it + 1) n out.2 with
      | error e =>
        rw [hlf] at h
        exact absurd h (by simp)
      | ok rest =>
        rw [hlf] at h
        dsimp only at h
        rw [Except.ok.injEq, Prod.mk.injEq] at h
        rw [← h.1, List.count_append]
        have hone : out.1.count Ev.sample = 1 :=
          epoch_sample_count cfg it st out.1 out.2 (by rw [hep])
        have hrest : rest.1.count Ev.sample = n :=
          ih (it + 1) out.2 rest.1 rest.2 (by rw [hlf])
        rw [hone, hrest]
        omega

theorem filter_verify_core (s : Nat) (progs : List Program) (row : List ℚ) :
    (stepTraceCore s progs row).filter isVerifyEv = [] := by
  simp [stepTraceCore, isVerifyEv]

theorem filter_verify_verifyRollout (cfg : Config) (p : Program) (f t : Nat) (gs : ℚ) :
    (verifyRollout cfg p t f gs).1.filter isVerifyEv = (verifyRollout cfg p t f gs).1 := by
  rw [List.filter_eq_self]
  intro ev hmem
  obtain ⟨u, hu⟩ := mem_verifyRollout cfg p f t gs ev hmem
  rw [hu]
  rfl

theorem filter_train_verifyRollout (cfg : Config) (p : Program) (f t : Nat) (gs : ℚ) :
    (verifyRollout cfg p t f gs).1.filter isTrainEv = [] := by
  rw [List.filter_eq_nil_iff]
  intro ev hmem
  obtain ⟨u, hu⟩ := mem_verifyRollout cfg p f t gs ev hmem
  rw [hu]
  exact Bool.noConfusion

theorem filter_train_core (s : Nat) (progs : List Program) (row : List ℚ) :
    (stepTraceCore s progs row).filter isTrainEv = [Ev.trainStep s] := by
  simp [stepTraceCore, isTrainEv]

/-- C7 (amended trigger): with early stopping enabled, when the step's base
reward exceeds the hard-coded 90 and `iteration > 100`, the step breaks the
rollout loop; its trace ends with a 100-step verification rollout driven by
the current best-by-shaped-reward program, with no controller training step
during verification (the step's single earlier training step is the only
one), followed by an environment reset as the last action; the break aborts
only the remaining rollout steps (the rollout loop returns at once for any
remaining fuel); and the epoch loop still runs all its epochs (the sample
count of any successful run equals its epoch count). -/
theorem c7_early_stopping (cfg : Config) (it s : Nat) (progs : List Program)
    (st : LoopState) (h1 : cfg.earlyStopping = true)
    (h2 : stepReward cfg progs st > 90) (h3 : it > 100) :
    (rolloutStep cfg it s progs st).brk = true
    ∧ ((rolloutStep cfg it s progs st).trace.filter isVerifyEv).length = 100
    ∧ (∀ u p, Ev.verifyStep u p ∈ (rolloutStep cfg it s progs st).trace →
        p = ((rolloutStep cfg it s progs st).st.pRBest).getD pdefault)
    ∧ ((rolloutStep cfg it s progs st).trace.filter isTrainEv).length = 1
    ∧ (rolloutStep cfg it s progs st).trace.getLast? = some Ev.envReset
    ∧ (∀ f, rolloutFrom cfg it progs s (f + 1) st
        = ((rolloutStep cfg it s progs st).trace, (rolloutStep cfg it s progs st).st))
    ∧ (∀ n it0 st0 tr2 st3, learnFrom cfg it0 n st0 = Except.ok (tr2, st3) →
        tr2.count Ev.sample = n) := by
  have htrig : (rolloutStep cfg it s progs st).brk = true := by
    show (cfg.earlyStopping
        && decide ([stepReward cfg progs st].headI > 90)) = true
    rw [h1]
    simp only [List.headI, Bool.true_and, decide_eq_true_eq]
    exact h2
  have htr : (rolloutStep cfg it s progs st).trace
      = stepTraceCore s progs (statsToList (rolloutStep cfg it s progs st).stats)
        ++ ((Ev.envReset ::
              (verifyRollout cfg (((rolloutStep cfg it s progs st).st.pRBest).getD pdefault)
                0 100 cfg.resetState).1)
            ++ [Ev.envReset]) := by
    rw [rolloutStep_trace, htrig, earlyStopTrace, if_pos rfl, if_pos h3]
  refine ⟨htrig, ?_, ?_, ?_, ?_, ?_, ?_⟩
  · rw [htr]
    simp [List.filter_append, filter_verify_core, filter_verify_verifyRollout,
      verifyRollout_length, isVerifyEv]
  · intro u p hmem
    rw [rolloutStep_trace, List.mem_append] at hmem
    rcases hmem with hmem | hmem
    · rw [mem_stepTraceCore] at hmem
      rcases hmem with hd | hd | hd | hd | hd | hd | hd
      all_goals exact Ev.noConfusion hd
    · rcases mem_earlyStopTrace cfg _ it _ _ hmem with ⟨u2, hu⟩ | hr
      · injection hu
      · exact Ev.noConfusion hr
  · rw [htr]
    simp [List.filter_append, filter_train_core, filter_train_verifyRollout, isTrainEv]
  · rw [htr, ← List.append_assoc, List.getLast?_concat]
  · intro f
    simp only [rolloutFrom, htrig, if_true]
  · intro n it0 st0 tr2 st3 hlf
    exact learnFrom_sample_count cfg n it0 st0 tr2 st3 hlf

/-- C7 witness: reward 100 with early stopping on, at iteration 101. -/
theorem c7_early_stopping_witness :
    cfgEarly.earlyStopping = true
    ∧ stepReward cfgEarly [fromTokens [1] true] (initState cfgEarly) > 90
    ∧ ((101 : Nat) > 100)
    ∧ ((rolloutStep cfgEarly 101 0 [fromTokens [1] true] (initState cfgEarly)).brk = true
        ∧ ((rolloutStep cfgEarly 101 0 [fromTokens [1] true]
              (initState cfgEarly)).trace.filter isVerifyEv).length = 100
        ∧ (∀ u p, Ev.verifyStep u p
              ∈ (rolloutStep cfgEarly 101 0 [fromTokens [1] true] (initState cfgEarly)).trace →
            p = ((rolloutStep cfgEarly 101 0 [fromTokens [1] true]
                (initState cfgEarly)).st.pRBest).getD pdefault)
        ∧ ((rolloutStep cfgEarly 101 0 [fromTokens [1] true]
              (initState cfgEarly)).trace.filter isTrainEv).length = 1
        ∧ (rolloutStep cfgEarly 101 0 [fromTokens [1] true]
            (initState cfgEarly)).trace.getLast? = some Ev.envReset
        ∧ (∀ f, rolloutFrom cfgEarly 101 [fromTokens [1] true] 0 (f + 1) (initState cfgEarly)
            = ((rolloutStep cfgEarly 101 0 [fromTokens [1] true] (initState cfgEarly)).trace,
               (rolloutStep cfgEarly 101 0 [fromTokens [1] true] (initState cfgEarly)).st))
        ∧ (∀ n it0 st0 tr2 st3, learnFrom cfgEarly it0 n st0 = Except.ok (tr2, st3) →
            tr2.count Ev.sample = n)) :=
  ⟨rfl, by norm_num [stepReward, cfgEarly, cfgBase, initState], by norm_num,
    c7_early_stopping cfgEarly 101 0 [fromTokens [1] true] (initState cfgEarly) rfl
      (by norm_num [stepReward, cfgEarly, cfgBase, initState]) (by norm_num)⟩

/-- An environment whose reward 50 exceeds the configured `threshold`
(`1e-12`) but not the hard-coded 90. -/
def cfgMidReward : Config :=
  { cfgBase with earlyStopping := true, stepFn := fun s _ => (s, 50, false) }

/-- C7 counterexample: early stopping enabled, the *configured* threshold
exceeded (reward 50 vs `threshold = 1e-12`), minimum-iteration guard elapsed
— yet the step does not break and runs no verification rollout, because line
274 compares `base_r` against the literal 90 and never reads `threshold`. -/
theorem c7_counterexample :
    cfgMidReward.earlyStopping = true
    ∧ cfgMidReward.threshold
        < stepReward cfgMidReward [fromTokens [1] true] (initState cfgMidReward)
    ∧ ((101 : Nat) > 100)
    ∧ (rolloutStep cfgMidReward 101 0 [fromTokens [1] true] (initState cfgMidReward)).brk
        = false
    ∧ ((rolloutStep cfgMidReward 101 0 [fromTokens [1] true]
          (initState cfgMidReward)).trace.filter isVerifyEv).length = 0 := by
  have hbrk : (rolloutStep cfgMidReward 101 0 [fromTokens [1] true]
      (initState cfgMidReward)).brk = false := by
    show (cfgMidReward.earlyStopping
        && decide ([stepReward cfgMidReward [fromTokens [1] true]
            (initState cfgMidReward)].headI > 90)) = false
    norm_num [stepReward, cfgMidReward, cfgBase, initState]
  refine ⟨rfl, by norm_num [stepReward, cfgMidReward, cfgBase, initState], by norm_num,
    hbrk, ?_⟩
  rw [rolloutStep_trace, hbrk]
  simp [earlyStopTrace, List.filter_append, filter_verify_core]

/-! ## C8 — best-expression tracking -/

theorem argmaxQ_singleton (x : ℚ) : argmaxQ [x] = 0 := rfl

/-- C8: under the loop invariant `prev_r_best = r_best` (and likewise for
`base_r`, both holding at init and re-established by every step), each tracker
is replaced exactly when its step maximum strictly exceeds the previously
recorded best (and always on the first step); on steps without strict
improvement the program reference, the running score and the recorded
previous best are all unchanged.  The two trackers read only their own
reward vector. -/
theorem c8_best_tracking (cfg : Config) (it s : Nat) (progs : List Program)
    (st : LoopState) (hinv1 : st.prevRBest = st.rBest)
    (hinv2 : st.prevBaseRBest = st.baseRBest) :
    (st.prevRBest = none →
        (rolloutStep cfg it s progs st).st.pRBest
            = some (progs.getD (argmaxQ (clipR (shapedRewards cfg progs st))) pdefault)
        ∧ (rolloutStep cfg it s progs st).st.rBest
            = some (maxQ (shapedRewards cfg progs st))
        ∧ (rolloutStep cfg it s progs st).st.prevRBest
            = some (maxQ (shapedRewards cfg progs st)))
    ∧ (∀ pv, st.prevRBest = some pv → maxQ (shapedRewards cfg progs st) > pv →
        (rolloutStep cfg it s progs st).st.pRBest
            = some (progs.getD (argmaxQ (clipR (shapedRewards cfg progs st))) pdefault)
        ∧ (rolloutStep cfg it s progs st).st.rBest
            = some (maxQ (shapedRewards cfg progs st))
        ∧ (rolloutStep cfg it s progs st).st.prevRBest
            = some (maxQ (shapedRewards cfg progs st)))
    ∧ (∀ pv, st.prevRBest = some pv → ¬(maxQ (shapedRewards cfg progs st) > pv) →
        (rolloutStep cfg it s progs st).st.pRBest = st.pRBest
        ∧ (rolloutStep cfg it s progs st).st.rBest = st.rBest
        ∧ (rolloutStep cfg it s progs st).st.prevRBest = st.prevRBest)
    ∧ (st.prevBaseRBest = none →
        (rolloutStep cfg it s progs st).st.pBaseRBest = some (progs.getD 0 pdefault)
        ∧ (rolloutStep cfg it s progs st).st.baseRBest = some (stepReward cfg progs st)
        ∧ (rolloutStep cfg it s progs st).st.prevBaseRBest
            = some (stepReward cfg progs st))
    ∧ (∀ pv, st.prevBaseRBest = some pv → stepReward cfg progs st > pv →
        (rolloutStep cfg it s progs st).st.pBaseRBest = some (progs.getD 0 pdefault)
        ∧ (rolloutStep cfg it s progs st).st.baseRBest = some (stepReward cfg progs st)
        ∧ (rolloutStep cfg it s progs st).st.prevBaseRBest
            = some (stepReward cfg progs st))
    ∧ (∀ pv, st.prevBaseRBest = some pv → ¬(stepReward cfg progs st > pv) →
        (rolloutStep cfg it s progs st).st.pBaseRBest = st.pBaseRBest
        ∧ (rolloutStep cfg it s progs st).st.baseRBest = st.baseRBest
        ∧ (rolloutStep cfg it s progs st).st.prevBaseRBest = st.prevBaseRBest) := by
  refine ⟨?_, ?_, ?_, ?_, ?_, ?_⟩
  · intro h
    have hr : st.rBest = none := by rw [← hinv1, h]
    simp [rolloutStep, h, hr, optMax]
  · intro pv h h2
    have hr : st.rBest = some pv := by rw [← hinv1, h]
    simp only [rolloutStep, h, hr, optMax]
    rw [if_pos h2, max_eq_left (le_of_lt h2)]
    exact ⟨rfl, rfl, rfl⟩
  · intro pv h h2
    have hr : st.rBest = some pv := by rw [← hinv1, h]
    simp only [rolloutStep, h, hr, optMax]
    rw [if_neg h2, max_eq_right (not_lt.mp h2)]
    exact ⟨rfl, rfl, rfl⟩
  · intro h
    have hr : st.baseRBest = none := by rw [← hinv2, h]
    simp [rolloutStep, h, hr, optMax, maxQ_singleton, argmaxQ_singleton]
  · intro pv h h2
    have hr : st.baseRBest = some pv := by rw [← hinv2, h]
    simp only [rolloutStep, h, hr, optMax, maxQ_singleton, argmaxQ_singleton]
    rw [if_pos h2, max_eq_left (le_of_lt h2)]
    exact ⟨rfl, rfl, rfl⟩
  · intro pv h h2
    have hr : st.baseRBest = some pv := by rw [← hinv2, h]
    simp only [rolloutStep, h, hr, optMax, maxQ_singleton, argmaxQ_singleton]
    rw [if_neg h2, max_eq_right (not_lt.mp h2)]
    exact ⟨rfl, rfl, rfl⟩

/-- C8 witness: the first rollout step of `cfgBase` from the initial state,
where both previous bests are unset. -/
theorem c8_best_tracking_witness :
    ((initState cfgBase).prevRBest = none →
        (rolloutStep cfgBase 0 0 [fromTokens [1] true] (initState cfgBase)).st.pRBest
            = some ([fromTokens [1] true].getD
                (argmaxQ (clipR (shapedRewards cfgBase [fromTokens [1] true]
                  (initState cfgBase)))) pdefault)
        ∧ (rolloutStep cfgBase 0 0 [fromTokens [1] true] (initState cfgBase)).st.rBest
            = some (maxQ (shapedRewards cfgBase [fromTokens [1] true] (initState cfgBase)))
        ∧ (rolloutStep cfgBase 0 0 [fromTokens [1] true] (initState cfgBase)).st.prevRBest
            = some (maxQ (shapedRewards cfgBase [fromTokens [1] true] (initState cfgBase))))
    ∧ (∀ pv, (initState cfgBase).prevRBest = some pv →
        maxQ (shapedRewards cfgBase [fromTokens [1] true] (initState cfgBase)) > pv →
        (rolloutStep cfgBase 0 0 [fromTokens [1] true] (initState cfgBase)).st.pRBest
            = some ([fromTokens [1] true].getD
                (argmaxQ (clipR (shapedRewards cfgBase [fromTokens [1] true]
                  (initState cfgBase)))) pdefault)
        ∧ (rolloutStep cfgBase 0 0 [fromTokens [1] true] (initState cfgBase)).st.rBest
            = some (maxQ (shapedRewards cfgBase [fromTokens [1] true] (initState cfgBase)))
        ∧ (rolloutStep cfgBase 0 0 [fromTokens [1] true] (initState cfgBase)).st.prevRBest
            = some (maxQ (shapedRewards cfgBase [fromTokens [1] true] (initState cfgBase))))
    ∧ (∀ pv, (initState cfgBase).prevRBest = some pv →
        ¬(maxQ (shapedRewards cfgBase [fromTokens [1] true] (initState cfgBase)) > pv) →
        (rolloutStep cfgBase 0 0 [fromTokens [1] true] (initState cfgBase)).st.pRBest
            = (initState cfgBase).pRBest
        ∧ (rolloutStep cfgBase 0 0 [fromTokens [1] true] (initState cfgBase)).st.rBest
            = (initState cfgBase).rBest
        ∧ (rolloutStep cfgBase 0 0 [fromTokens [1] true] (initState cfgBase)).st.prevRBest
            = (initState cfgBase).prevRBest)
    ∧ ((initState cfgBase).prevBaseRBest = none →
        (rolloutStep cfgBase 0 0 [fromTokens [1] true] (initState cfgBase)).st.pBaseRBest
            = some ([fromTokens [1] true].getD 0 pdefault)
        ∧ (rolloutStep cfgBase 0 0 [fromTokens [1] true] (initState cfgBase)).st.baseRBest
            = some (stepReward cfgBase [fromTokens [1] true] (initState cfgBase))
        ∧ (rolloutStep cfgBase 0 0 [fromTokens [1] true]
            (initState cfgBase)).st.prevBaseRBest
            = some (stepReward cfgBase [fromTokens [1] true] (initState cfgBase)))
    ∧ (∀ pv, (initState cfgBase).prevBaseRBest = some pv →
        stepReward cfgBase [fromTokens [1] true] (initState cfgBase) > pv →
        (rolloutStep cfgBase 0 0 [fromTokens [1] true] (initState cfgBase)).st.pBaseRBest
            = some ([fromTokens [1] true].getD 0 pdefault)
        ∧ (rolloutStep cfgBase 0 0 [fromTokens [1] true] (initState cfgBase)).st.baseRBest
            = some (stepReward cfgBase [fromTokens [1] true] (initState cfgBase))
        ∧ (rolloutStep cfgBase 0 0 [fromTokens [1] true]
            (initState cfgBase)).st.prevBaseRBest
            = some (stepReward cfgBase [fromTokens [1] true] (initState cfgBase)))
    ∧ (∀ pv, (initState cfgBase).prevBaseRBest = some pv →
        ¬(stepReward cfgBase [fromTokens [1] true] (initState cfgBase) > pv) →
        (rolloutStep cfgBase 0 0 [fromTokens [1] true] (initState cfgBase)).st.pBaseRBest
            = (initState cfgBase).pBaseRBest
        ∧ (rolloutStep cfgBase 0 0 [fromTokens [1] true] (initState cfgBase)).st.baseRBest
            = (initState cfgBase).baseRBest
        ∧ (rolloutStep cfgBase 0 0 [fromTokens [1] true]
            (initState cfgBase)).st.prevBaseRBest
            = (initState cfgBase).prevBaseRBest) :=
  c8_best_tracking cfgBase 0 0 [fromTokens [1] true] (initState cfgBase) rfl rfl

end DsrGym
